import Mathlib

/-!
Shallow embedding of the `vql-macros` query parser.

The source (`src/vql-macros/src/parse.rs`, `src/vql-macros/src/structs.rs`)
is a recursive-descent parser built on `syn` that turns a proc-macro token
stream into a `Query` AST.

Token model: a proc-macro stream is a list of trees — identifiers (custom
keywords such as `SELECT` are ordinary identifier tokens; `syn`'s `Ident`
peek/parse rejects Rust's reserved words), integer literals, punctuation,
and delimited groups (`braced!` enters a brace group; `input.peek(Brace)`
sees the group as one token).  Multi-character operators such as `==` or
`>=` arrive as jointly-spaced punct sequences; since the parser always
tests the longer operator first, we model each operator as one atomic
punct token.

`syn`'s `Lookahead1` records every alternative it is asked to peek and,
on failure, reports exactly the recorded set; `input.peek` records
nothing.  Errors are modelled as the list of recorded alternatives.

The expression delegate (`input.parse::<syn::Expr>()`) is external per the
source's use of `syn`; parsers take it as a parameter `d : ExprP` that
consumes some prefix of the stream and returns an opaque expression value.
-/

namespace VQL

/-- Delimiters of proc-macro groups. -/
inductive Delim where
  | brace
  | paren
  | bracket
deriving DecidableEq, Repr

/-- One proc-macro token tree. -/
inductive Tok where
  | ident (s : String)
  | litInt (n : Nat)
  | punct (s : String)
  | group (d : Delim) (ts : List Tok)
deriving Repr

/-- Structured parse error: the alternatives the failing position
recorded (via `Lookahead1` peeks or a direct token expectation). -/
structure ParseError where
  expected : List String
deriving DecidableEq, Repr

/-- Rust's reserved words: `syn`'s `Ident` peek and parse reject these
(relevant here because `if` introduces a guard in the DSL). -/
def rustKw : List String :=
  ["as", "async", "await", "break", "const", "continue", "crate", "dyn",
   "else", "enum", "extern", "false", "fn", "for", "if", "impl", "in",
   "let", "loop", "match", "mod", "move", "mut", "pub", "ref", "return",
   "self", "Self", "static", "struct", "super", "trait", "true", "type",
   "unsafe", "use", "where", "while"]

/-- Source `input.peek(kw::K)`: the head token is an identifier spelled `k`.
Custom keywords match any identifier with that spelling. -/
def peekKw (k : String) : List Tok → Bool
  | .ident s :: _ => s == k
  | _ => false

/-- Source `input.peek2(kw::K)`: the second token is an identifier spelled `k`. -/
def peek2Kw (k : String) : List Tok → Bool
  | _ :: .ident s :: _ => s == k
  | _ => false

/-- Source `input.peek(Token![p])` for punctuation. -/
def peekPunct (p : String) : List Tok → Bool
  | .punct s :: _ => s == p
  | _ => false

/-- Source `input.peek2(Token![:])` and friends. -/
def peek2Punct (p : String) : List Tok → Bool
  | _ :: .punct s :: _ => s == p
  | _ => false

/-- Source `input.peek(Ident)`: an identifier that is not a Rust reserved word. -/
def peekIdent : List Tok → Bool
  | .ident s :: _ => !rustKw.contains s
  | _ => false

/-- Source `input.peek(Brace)`: the head token is a brace-delimited group. -/
def peekBrace : List Tok → Bool
  | .group .brace _ :: _ => true
  | _ => false

/-- A parser over the token stream, in the style of `syn`'s
`fn parse(input: ParseStream) -> Result<T>` with the stream threaded
explicitly. -/
abbrev P (α : Type) := List Tok → Except ParseError (α × List Tok)

/-- Source `input.parse::<kw::K>()`. -/
def parseKw (k : String) : P Unit := fun ts =>
  match ts with
  | .ident s :: rest => if s = k then .ok ((), rest) else .error ⟨[k]⟩
  | _ => .error ⟨[k]⟩

/-- Source `input.parse::<Token![p]>()`. -/
def parsePunct (p : String) : P Unit := fun ts =>
  match ts with
  | .punct s :: rest => if s = p then .ok ((), rest) else .error ⟨[p]⟩
  | _ => .error ⟨[p]⟩

/-- Source `input.parse::<Ident>()`: accepts any identifier that is not a Rust
reserved word (so `WHERE`, `AND`, … are legal identifiers). -/
def parseIdent : P String := fun ts =>
  match ts with
  | .ident s :: rest =>
      if rustKw.contains s then .error ⟨["identifier"]⟩ else .ok (s, rest)
  | _ => .error ⟨["identifier"]⟩

/-- Source `braced!(content in input)`: enter a brace group, yielding its inner
stream and the stream after the group. -/
def parseBraced : List Tok → Except ParseError (List Tok × List Tok)
  | .group .brace inner :: rest => .ok (inner, rest)
  | _ => .error ⟨["brace group"]⟩

/-! ## AST (`structs.rs`) -/

/-- Opaque value expression (`struct Expr(pub syn::Expr)`): the payload an
external expression delegate produced; the core never inspects it, we
record the consumed tokens. -/
structure Expr where
  toks : List Tok
deriving Repr

/-- The expression delegate: `input.parse::<syn::Expr>()` as an external
collaborator consuming some prefix of the stream. -/
abbrev ExprP := List Tok → Except ParseError (Expr × List Tok)

/-- Source `enum Column { All, Named(String, Option<String>) }`. -/
inductive Column where
  | all
  | named (name : String) (al : Option String)
deriving DecidableEq, Repr

/-- Source `impl PartialEq<&str> for Column` from `structs.rs`. -/
def Column.eqStr : Column → String → Bool
  | .all, _ => false
  | .named name _, other => name == other

/-- Source `enum ForLock { Update, Share }`. -/
inductive ForLock where
  | update
  | share
deriving DecidableEq, Repr

/-- Source `enum BoolOp { And, Or }`. -/
inductive BoolOp where
  | and
  | or
deriving DecidableEq, Repr

/-- Source `enum WhereOp` (ten comparison operators). -/
inductive WhereOp where
  | eq
  | ne
  | gt
  | ge
  | lt
  | le
  | like
  | notLike
  | inOp
  | notInOp
deriving DecidableEq, Repr

/-- Source `enum Ordering { Asc, Desc }`. -/
inductive Ordering where
  | asc
  | desc
deriving DecidableEq, Repr

/-- Source `enum JoinType { Inner, Left, Right, Full }`. -/
inductive JoinType where
  | inner
  | left
  | right
  | full
deriving DecidableEq, Repr

/-- Source `struct Conditional<T> { value: T, condition: Option<Expr> }`. -/
structure Conditional (α : Type) where
  value : α
  condition : Option Expr
deriving Repr

/-- Source `struct ColumnCondition { column, op, value }`. -/
structure ColumnCondition where
  column : String
  op : WhereOp
  value : Expr
deriving Repr

/-- Source `enum Where { Column(Conditional<ColumnCondition>), BoolWhere(BoolWhere) }`
with `struct BoolWhere { op, conditions }` inlined into the `boolWhere`
constructor (Lean nested-inductive form of the mutually recursive pair). -/
inductive Where where
  | column (c : Conditional ColumnCondition)
  | boolWhere (op : BoolOp) (conditions : List (Conditional Where))

/-- Source `struct Join { table, on, join_type, outer }` (`on` is reserved in
Lean, renamed `onExpr`). -/
structure Join where
  table : String
  onExpr : Expr
  joinType : JoinType
  outer : Bool

/-- Source `enum Query` from `structs.rs`.  `limit`/`offset` are `u128` in the
source; they are modelled as `Nat` with the `< 2^128` bound enforced where
the source's `base10_parse::<u128>` enforces it. -/
inductive Query where
  | select (columns : List Column) (table : String)
      (whereClause : Option Where) (groupBy : List String)
      (orderBy : List (String × Ordering)) (limit : Option Nat)
      (offset : Option Nat) (joins : List Join) (lock : Option ForLock)
  | update (columns : List (String × Expr)) (table : String)
      (whereClause : Option Where) (returning : List Column)
  | insert (columns : List (String × Expr)) (table : String)
      (returning : List Column)
  | delete (table : String) (whereClause : Option Where)
      (returning : List Column)

/-! ## Primitive parsers (`parse.rs`)

Each `if`/`else if` chain translates a `Lookahead1` chain; the final error
lists exactly the alternatives the source recorded through
`lookahead.peek` on the failing path (`input.peek` records nothing). -/

/-- Source `impl Parse for BoolOp`. -/
def BoolOp.parse : P BoolOp := fun ts =>
  if peekKw "AND" ts then
    match parseKw "AND" ts with
    | .error e => .error e
    | .ok (_, ts1) => .ok (.and, ts1)
  else if peekKw "OR" ts then
    match parseKw "OR" ts with
    | .error e => .error e
    | .ok (_, ts1) => .ok (.or, ts1)
  else .error ⟨["AND", "OR"]⟩

/-- Source `impl Parse for WhereOp`: the ten comparison operators, tried in
source order; `NOT LIKE` / `NOT IN` need `peek2`.  On failure every
alternative the chain peeked was recorded (`NOT` twice, as in the
source's two `lookahead.peek(kw::NOT)` calls). -/
def WhereOp.parse : P WhereOp := fun ts =>
  if peekPunct "==" ts then .ok (.eq, ts.tail)
  else if peekPunct "!=" ts then .ok (.ne, ts.tail)
  else if peekPunct ">=" ts then .ok (.ge, ts.tail)
  else if peekPunct ">" ts then .ok (.gt, ts.tail)
  else if peekPunct "<=" ts then .ok (.le, ts.tail)
  else if peekPunct "<" ts then .ok (.lt, ts.tail)
  else if peekKw "LIKE" ts then .ok (.like, ts.tail)
  else if peekKw "NOT" ts && peek2Kw "LIKE" ts then .ok (.notLike, ts.tail.tail)
  else if peekKw "IN" ts then .ok (.inOp, ts.tail)
  else if peekKw "NOT" ts && peek2Kw "IN" ts then .ok (.notInOp, ts.tail.tail)
  else .error ⟨["==", "!=", ">=", ">", "<=", "<", "LIKE", "NOT", "IN", "NOT"]⟩

/-- Source `impl Parse for Ordering`. -/
def Ordering.parse : P Ordering := fun ts =>
  if peekKw "ASC" ts then .ok (.asc, ts.tail)
  else if peekKw "DESC" ts then .ok (.desc, ts.tail)
  else .error ⟨["ASC", "DESC"]⟩

/-- Source `impl Parse for ForLock`: the `UPDATE` arm uses `input.peek`
(not the `Lookahead1`), so only `SHARE` is recorded for the error. -/
def ForLock.parse : P ForLock := fun ts =>
  if peekKw "UPDATE" ts then .ok (.update, ts.tail)
  else if peekKw "SHARE" ts then .ok (.share, ts.tail)
  else .error ⟨["SHARE"]⟩

/-- Modelled from the spec (§9 open question, for the refinement claim):
the same lock parser with both arms checked through the lookahead-error
object, so both keywords are recorded. -/
def ForLock.parseUniform : P ForLock := fun ts =>
  if peekKw "UPDATE" ts then .ok (.update, ts.tail)
  else if peekKw "SHARE" ts then .ok (.share, ts.tail)
  else .error ⟨["UPDATE", "SHARE"]⟩

/-- Source `impl Parse for Column`: identifier with optional `AS alias`, or `*`. -/
def Column.parse : P Column := fun ts =>
  if peekIdent ts then
    match parseIdent ts with
    | .error e => .error e
    | .ok (name, ts1) =>
      if peekKw "AS" ts1 then
        match parseIdent ts1.tail with
        | .error e => .error e
        | .ok (a, ts2) => .ok (.named name (some a), ts2)
      else .ok (.named name none, ts1)
  else if peekPunct "*" ts then .ok (.all, ts.tail)
  else .error ⟨["identifier", "*"]⟩

/-- Source `impl Parse for Expr` delegates to `syn::Expr`; witnesses instantiate
the delegate with this simple collaborator that consumes one token. -/
def exprOne : ExprP := fun ts =>
  match ts with
  | t :: rest => .ok (⟨[t]⟩, rest)
  | [] => .error ⟨["expression"]⟩

/-- Source `input.parse::<LitInt>()`: a literal token, or (via `syn::Lit`'s
negative-literal support) a `-` punct followed by a literal; the flag
records the sign. -/
def parseLitInt : P (Bool × Nat) := fun ts =>
  match ts with
  | .litInt n :: rest => .ok ((false, n), rest)
  | .punct s :: .litInt n :: rest =>
      if s = "-" then .ok ((true, n), rest) else .error ⟨["integer literal"]⟩
  | _ => .error ⟨["integer literal"]⟩

/-- Source `LitInt::base10_parse::<u128>()`: succeeds exactly on an unsigned
value below `2 ^ 128`. -/
def base10ParseU128 : Bool × Nat → Except ParseError Nat
  | (false, n) => if n < 2 ^ 128 then .ok n else .error ⟨["u128 literal"]⟩
  | (true, _) => .error ⟨["u128 literal"]⟩

/-- Source `input.parse::<LitInt>()?.base10_parse::<u128>()?` as used for
`LIMIT` and `OFFSET`. -/
def parseU128 : P Nat := fun ts =>
  match parseLitInt ts with
  | .error e => .error e
  | .ok (v, rest) =>
    match base10ParseU128 v with
    | .error e => .error e
    | .ok n => .ok (n, rest)

/-- Source `parse_terminated(f, Token![,])` on a delimited content stream:
comma-separated `f`-items, empty list and trailing comma allowed, the
content must be consumed exactly.  `fuel` bounds the iteration (any fuel
past the content length behaves identically). -/
def parseTerminated (f : P α) : Nat → List Tok → Except ParseError (List α)
  | _, [] => .ok []
  | 0, _ :: _ => .error ⟨["recursion limit"]⟩
  | fuel + 1, ts =>
    match f ts with
    | .error e => .error e
    | .ok (a, rest) =>
      match rest with
      | [] => .ok [a]
      | _ =>
        match parsePunct "," rest with
        | .error e => .error e
        | .ok (_, rest2) =>
          match parseTerminated f fuel rest2 with
          | .error e => .error e
          | .ok as => .ok (a :: as)

/-- Source `impl Parse for ColumnCondition`: column name, operator, value
expression (delegated). -/
def ColumnCondition.parse (d : ExprP) : P ColumnCondition := fun ts =>
  match parseIdent ts with
  | .error e => .error e
  | .ok (column, ts1) =>
    match WhereOp.parse ts1 with
    | .error e => .error e
    | .ok (op, ts2) =>
      match d ts2 with
      | .error e => .error e
      | .ok (value, ts3) => .ok (⟨column, op, value⟩, ts3)

/-- Source `impl Parse for Conditional<ColumnCondition>`: the value, then an
optional `if` guard expression. -/
def conditionalColumn (d : ExprP) : P (Conditional ColumnCondition) := fun ts =>
  match ColumnCondition.parse d ts with
  | .error e => .error e
  | .ok (v, ts1) =>
    if peekKw "if" ts1 then
      match d ts1.tail with
      | .error e => .error e
      | .ok (c, ts2) => .ok (⟨v, some c⟩, ts2)
    else .ok (⟨v, none⟩, ts1)

/-! ## Condition-tree parser (`Where` / `BoolWhere` / `Conditional<Where>`)

The source recursion goes through nested brace groups; `fuel` bounds the
mutual recursion (any fuel past four times the nesting depth behaves
identically, and every theorem below quantifies over it). -/

mutual

/-- Source `impl Parse for Where`: commit to a boolean group exactly when the
head token is `AND`/`OR` **and** the second token is a colon; otherwise a
plain identifier starts a leaf condition; anything else is an error
recording `AND`, `OR`, `identifier`. -/
def Where.parse (d : ExprP) : Nat → List Tok → Except ParseError (Where × List Tok)
  | 0, _ => .error ⟨["recursion limit"]⟩
  | fuel + 1, ts =>
    if (peekKw "AND" ts || peekKw "OR" ts) && peek2Punct ":" ts then
      match BoolWhere.parse d fuel ts with
      | .error e => .error e
      | .ok ((op, conds), ts1) => .ok (.boolWhere op conds, ts1)
    else if peekIdent ts then
      match conditionalColumn d ts with
      | .error e => .error e
      | .ok (c, ts1) => .ok (.column c, ts1)
    else .error ⟨["AND", "OR", "identifier"]⟩

/-- Source `impl Parse for BoolWhere`: combinator keyword, colon, braced
comma-separated guarded wheres (result returned as the pair inlined into
`Where.boolWhere`). -/
def BoolWhere.parse (d : ExprP) : Nat → List Tok →
    Except ParseError ((BoolOp × List (Conditional Where)) × List Tok)
  | 0, _ => .error ⟨["recursion limit"]⟩
  | fuel + 1, ts =>
    match BoolOp.parse ts with
    | .error e => .error e
    | .ok (op, ts1) =>
      match parsePunct ":" ts1 with
      | .error e => .error e
      | .ok (_, ts2) =>
        match parseBraced ts2 with
        | .error e => .error e
        | .ok (inner, ts3) =>
          match condList d fuel inner with
          | .error e => .error e
          | .ok conds => .ok ((op, conds), ts3)

/-- Source `parse_terminated(Conditional::<Where>::parse, Token![,])` on the
group's content. -/
def condList (d : ExprP) : Nat → List Tok →
    Except ParseError (List (Conditional Where))
  | _, [] => .ok []
  | 0, _ :: _ => .error ⟨["recursion limit"]⟩
  | fuel + 1, ts =>
    match conditionalWhere d fuel ts with
    | .error e => .error e
    | .ok (a, rest) =>
      match rest with
      | [] => .ok [a]
      | _ =>
        match parsePunct "," rest with
        | .error e => .error e
        | .ok (_, rest2) =>
          match condList d fuel rest2 with
          | .error e => .error e
          | .ok as => .ok (a :: as)

/-- Source `impl Parse for Conditional<Where>`: a where-node, then an optional
`if` guard expression. -/
def conditionalWhere (d : ExprP) : Nat → List Tok →
    Except ParseError (Conditional Where × List Tok)
  | 0, _ => .error ⟨["recursion limit"]⟩
  | fuel + 1, ts =>
    match Where.parse d fuel ts with
    | .error e => .error e
    | .ok (v, ts1) =>
      if peekKw "if" ts1 then
        match d ts1.tail with
        | .error e => .error e
        | .ok (c, ts2) => .ok (⟨v, some c⟩, ts2)
      else .ok (⟨v, none⟩, ts1)

end

/-! ## Clause and statement parsers -/

/-- Source `impl Parse for Join`: join-type keyword (via the lookahead), an
optional `OUTER` flag (via `input.peek`, accepted after any join type),
`JOIN`, table, `ON`, delegated expression. -/
def Join.parse (d : ExprP) : P Join := fun ts =>
  match
    (if peekKw "INNER" ts then .ok (JoinType.inner, ts.tail)
     else if peekKw "LEFT" ts then .ok (JoinType.left, ts.tail)
     else if peekKw "RIGHT" ts then .ok (JoinType.right, ts.tail)
     else if peekKw "FULL" ts then .ok (JoinType.full, ts.tail)
     else .error ⟨["INNER", "LEFT", "RIGHT", "FULL"]⟩ :
      Except ParseError (JoinType × List Tok))
  with
  | .error e => .error e
  | .ok (joinType, ts1) =>
    let (outer, ts2) := if peekKw "OUTER" ts1 then (true, ts1.tail) else (false, ts1)
    match parseKw "JOIN" ts2 with
    | .error e => .error e
    | .ok (_, ts3) =>
      match parseIdent ts3 with
      | .error e => .error e
      | .ok (table, ts4) =>
        match parseKw "ON" ts4 with
        | .error e => .error e
        | .ok (_, ts5) =>
          match d ts5 with
          | .error e => .error e
          | .ok (onE, ts6) => .ok (⟨table, onE, joinType, outer⟩, ts6)

/-- Source `fn parse_where`: `None` when the head token is not `WHERE`,
otherwise consume `WHERE` and parse the condition tree. -/
def parse_where (d : ExprP) (fuel : Nat) : P (Option Where) := fun ts =>
  if peekKw "WHERE" ts then
    match Where.parse d fuel ts.tail with
    | .error e => .error e
    | .ok (w, ts1) => .ok (some w, ts1)
  else .ok (none, ts)

/-- Source `fn parse_returning`: the empty list when the head token is not
`RETURNING`, otherwise consume `RETURNING` and parse a braced column
list. -/
def parse_returning (fuel : Nat) : P (List Column) := fun ts =>
  if peekKw "RETURNING" ts then
    match parseBraced ts.tail with
    | .error e => .error e
    | .ok (inner, ts1) =>
      match parseTerminated Column.parse fuel inner with
      | .error e => .error e
      | .ok cols => .ok (cols, ts1)
  else .ok ([], ts)

/-- Source `fn parse_semicolon`: consume an optional trailing `;`. -/
def parse_semicolon : P Unit := fun ts =>
  if peekPunct ";" ts then
    match parsePunct ";" ts with
    | .error e => .error e
    | .ok (_, ts1) => .ok ((), ts1)
  else .ok ((), ts)

/-- Source `name = expression` entry of insert/update assignment lists. -/
def assignParse (d : ExprP) : P (String × Expr) := fun ts =>
  match parseIdent ts with
  | .error e => .error e
  | .ok (column, ts1) =>
    match parsePunct "=" ts1 with
    | .error e => .error e
    | .ok (_, ts2) =>
      match d ts2 with
      | .error e => .error e
      | .ok (e, ts3) => .ok ((column, e), ts3)

/-- Source `column ordering` entry of the order-by list. -/
def orderByEntry : P (String × Ordering) := fun ts =>
  match parseIdent ts with
  | .error e => .error e
  | .ok (column, ts1) =>
    match Ordering.parse ts1 with
    | .error e => .error e
    | .ok (o, ts2) => .ok ((column, o), ts2)

/-- Bare column name entry of the group-by list. -/
def identEntry : P String := parseIdent

/-- The `SELECT` arm of `Query::parse`, after the `SELECT` keyword has
been consumed: braced column list, `FROM`, table, optional joins, where,
group-by, order-by, limit, offset, lock, optional semicolon. -/
def selectBody (d : ExprP) (fuel : Nat) : P Query := fun ts =>
  match parseBraced ts with
  | .error e => .error e
  | .ok (cinner, ts) =>
    match parseTerminated Column.parse fuel cinner with
    | .error e => .error e
    | .ok columns =>
      match parseKw "FROM" ts with
      | .error e => .error e
      | .ok (_, ts) =>
        match parseIdent ts with
        | .error e => .error e
        | .ok (table, ts) =>
          match
            (if peekBrace ts then
              match parseBraced ts with
              | .error e => .error e
              | .ok (jinner, ts1) =>
                match parseTerminated (Join.parse d) fuel jinner with
                | .error e => .error e
                | .ok js => .ok (js, ts1)
             else .ok ([], ts) :
              Except ParseError (List Join × List Tok))
          with
          | .error e => .error e
          | .ok (joins, ts) =>
            match parse_where d fuel ts with
            | .error e => .error e
            | .ok (whereClause, ts) =>
              match
                (if peekKw "GROUP" ts && peek2Kw "BY" ts then
                  match parseBraced ts.tail.tail with
                  | .error e => .error e
                  | .ok (ginner, ts1) =>
                    match parseTerminated identEntry fuel ginner with
                    | .error e => .error e
                    | .ok gs => .ok (gs, ts1)
                 else .ok ([], ts) :
                  Except ParseError (List String × List Tok))
              with
              | .error e => .error e
              | .ok (groupBy, ts) =>
                match
                  (if peekKw "ORDER" ts && peek2Kw "BY" ts then
                    match parseBraced ts.tail.tail with
                    | .error e => .error e
                    | .ok (oinner, ts1) =>
                      match parseTerminated orderByEntry fuel oinner with
                      | .error e => .error e
                      | .ok os => .ok (os, ts1)
                   else .ok ([], ts) :
                    Except ParseError (List (String × Ordering) × List Tok))
                with
                | .error e => .error e
                | .ok (orderBy, ts) =>
                  match
                    (if peekKw "LIMIT" ts then
                      match parseU128 ts.tail with
                      | .error e => .error e
                      | .ok (n, ts1) => .ok (some n, ts1)
                     else .ok (none, ts) :
                      Except ParseError (Option Nat × List Tok))
                  with
                  | .error e => .error e
                  | .ok (limit, ts) =>
                    match
                      (if peekKw "OFFSET" ts then
                        match parseU128 ts.tail with
                        | .error e => .error e
                        | .ok (n, ts1) => .ok (some n, ts1)
                       else .ok (none, ts) :
                        Except ParseError (Option Nat × List Tok))
                    with
                    | .error e => .error e
                    | .ok (offset, ts) =>
                      match
                        (if peekKw "FOR" ts then
                          match ForLock.parse ts.tail with
                          | .error e => .error e
                          | .ok (l, ts1) => .ok (some l, ts1)
                         else .ok (none, ts) :
                          Except ParseError (Option ForLock × List Tok))
                      with
                      | .error e => .error e
                      | .ok (lock, ts) =>
                        match parse_semicolon ts with
                        | .error e => .error e
                        | .ok (_, ts) =>
                          .ok (.select columns table whereClause groupBy
                                orderBy limit offset joins lock, ts)

/-- The `INSERT` arm of `Query::parse`, after the `INSERT` keyword:
braced assignment list, `INTO`, table, optional returning, optional
semicolon. -/
def insertBody (d : ExprP) (fuel : Nat) : P Query := fun ts =>
  match parseBraced ts with
  | .error e => .error e
  | .ok (inner, ts) =>
    match parseTerminated (assignParse d) fuel inner with
    | .error e => .error e
    | .ok columns =>
      match parseKw "INTO" ts with
      | .error e => .error e
      | .ok (_, ts) =>
        match parseIdent ts with
        | .error e => .error e
        | .ok (table, ts) =>
          match parse_returning fuel ts with
          | .error e => .error e
          | .ok (returning, ts) =>
            match parse_semicolon ts with
            | .error e => .error e
            | .ok (_, ts) => .ok (.insert columns table returning, ts)

/-- The `UPDATE` arm of `Query::parse`, after the `UPDATE` keyword:
table, `SET`, braced assignment list, optional where (inlined in the
source exactly as in `parse_where`), optional returning, optional
semicolon. -/
def updateBody (d : ExprP) (fuel : Nat) : P Query := fun ts =>
  match parseIdent ts with
  | .error e => .error e
  | .ok (table, ts) =>
    match parseKw "SET" ts with
    | .error e => .error e
    | .ok (_, ts) =>
      match parseBraced ts with
      | .error e => .error e
      | .ok (inner, ts) =>
        match parseTerminated (assignParse d) fuel inner with
        | .error e => .error e
        | .ok columns =>
          match
            (if peekKw "WHERE" ts then
              match Where.parse d fuel ts.tail with
              | .error e => .error e
              | .ok (w, ts1) => .ok (some w, ts1)
             else .ok (none, ts) :
              Except ParseError (Option Where × List Tok))
          with
          | .error e => .error e
          | .ok (whereClause, ts) =>
            match parse_returning fuel ts with
            | .error e => .error e
            | .ok (returning, ts) =>
              match parse_semicolon ts with
              | .error e => .error e
              | .ok (_, ts) =>
                .ok (.update columns table whereClause returning, ts)

/-- The `DELETE` arm of `Query::parse`, after the `DELETE` keyword:
`FROM`, table, optional where, optional returning, optional semicolon. -/
def deleteBody (d : ExprP) (fuel : Nat) : P Query := fun ts =>
  match parseKw "FROM" ts with
  | .error e => .error e
  | .ok (_, ts) =>
    match parseIdent ts with
    | .error e => .error e
    | .ok (table, ts) =>
      match parse_where d fuel ts with
      | .error e => .error e
      | .ok (whereClause, ts) =>
        match parse_returning fuel ts with
        | .error e => .error e
        | .ok (returning, ts) =>
          match parse_semicolon ts with
          | .error e => .error e
          | .ok (_, ts) => .ok (.delete table whereClause returning, ts)

/-- Source `impl Parse for Query`: the statement dispatcher.  The lookahead
records `SELECT`, `INSERT`, `UPDATE`, `DELETE`; a match commits to that
statement's arm (consuming the keyword), anything else fails with those
four alternatives. -/
def Query.parse (d : ExprP) (fuel : Nat) : P Query := fun ts =>
  if peekKw "SELECT" ts then selectBody d fuel ts.tail
  else if peekKw "INSERT" ts then insertBody d fuel ts.tail
  else if peekKw "UPDATE" ts then updateBody d fuel ts.tail
  else if peekKw "DELETE" ts then deleteBody d fuel ts.tail
  else .error ⟨["SELECT", "INSERT", "UPDATE", "DELETE"]⟩

/-! ## Helper lemmas -/

/-- A successful keyword peek pins down the head token. -/
theorem peekKw_shape {k : String} {ts : List Tok} (h : peekKw k ts = true) :
    ts = Tok.ident k :: ts.tail := by
  match ts with
  | [] => simp [peekKw] at h
  | .ident s :: rest => simp [peekKw] at h; subst h; rfl
  | .litInt _ :: rest => simp [peekKw] at h
  | .punct _ :: rest => simp [peekKw] at h
  | .group _ _ :: rest => simp [peekKw] at h

/-- A successful punct peek pins down the head token. -/
theorem peekPunct_shape {p : String} {ts : List Tok} (h : peekPunct p ts = true) :
    ts = Tok.punct p :: ts.tail := by
  match ts with
  | [] => simp [peekPunct] at h
  | .ident _ :: rest => simp [peekPunct] at h
  | .litInt _ :: rest => simp [peekPunct] at h
  | .punct s :: rest => simp [peekPunct] at h; subst h; rfl
  | .group _ _ :: rest => simp [peekPunct] at h

/-- A successful two-token keyword peek pins down the second token. -/
theorem peek2Kw_shape {k : String} {ts : List Tok} (h : peek2Kw k ts = true) :
    ∃ t, ts = t :: Tok.ident k :: ts.tail.tail := by
  match ts with
  | [] => simp [peek2Kw] at h
  | [_] => simp [peek2Kw] at h
  | t :: .ident s :: rest => simp [peek2Kw] at h; subst h; exact ⟨t, rfl⟩
  | _ :: .litInt _ :: rest => simp [peek2Kw] at h
  | _ :: .punct _ :: rest => simp [peek2Kw] at h
  | _ :: .group _ _ :: rest => simp [peek2Kw] at h

/-- Whether a where-node is a boolean group. -/
def Where.isGroup : Where → Bool
  | .boolWhere _ _ => true
  | .column _ => false

/-- The token spelling of each join-type keyword. -/
def joinKw : JoinType → String
  | .inner => "INNER"
  | .left => "LEFT"
  | .right => "RIGHT"
  | .full => "FULL"

/-- The keyword token sequence of each comparison operator. -/
def opTokens : WhereOp → List Tok
  | .eq => [.punct "=="]
  | .ne => [.punct "!="]
  | .ge => [.punct ">="]
  | .gt => [.punct ">"]
  | .le => [.punct "<="]
  | .lt => [.punct "<"]
  | .like => [.ident "LIKE"]
  | .notLike => [.ident "NOT", .ident "LIKE"]
  | .inOp => [.ident "IN"]
  | .notInOp => [.ident "NOT", .ident "IN"]

/-! ## Claims -/

/-- C10: the string comparison of a column looks only at the name:
`All` never equals a string, `Named(name, alias)` equals `s` exactly when
`name = s` whatever the alias, two `Named` columns with equal names and
different aliases agree on every string yet differ as `Column` values. -/
theorem claim_C10 (s name : String) (al al2 : Option String) :
    Column.eqStr .all s = false
    ∧ Column.eqStr (.named name al) s = (name == s)
    ∧ ((Column.named name al = Column.named name al2) ↔ al = al2)
    ∧ (Column.named "a" none).eqStr "a" = true
    ∧ (Column.named "a" (some "b")).eqStr "a" = true
    ∧ Column.named "a" none ≠ Column.named "a" (some "b") := by
  refine ⟨rfl, rfl, by simp, rfl, rfl, by decide⟩

/-- C3: the lock parser's asymmetric peeking does not change acceptance:
it agrees (up to the accepted value) with a parser that checks both arms
through the same lookahead, returning `Update` exactly on the `UPDATE`
keyword, `Share` exactly on `SHARE`, and failing on every other token. -/
theorem claim_C3 (ts : List Tok) :
    (ForLock.parse ts).toOption = (ForLock.parseUniform ts).toOption
    ∧ (peekKw "UPDATE" ts = true → ForLock.parse ts = .ok (.update, ts.tail))
    ∧ (peekKw "SHARE" ts = true → ForLock.parse ts = .ok (.share, ts.tail))
    ∧ (peekKw "UPDATE" ts = false → peekKw "SHARE" ts = false →
        (ForLock.parse ts).isOk = false) := by
  cases h1 : peekKw "UPDATE" ts with
  | true =>
    have hs := peekKw_shape h1
    have h2 : peekKw "SHARE" ts = false := by
      rw [hs]; simp [peekKw]
    refine ⟨?_, fun _ => ?_, fun hc => ?_, fun hu _ => ?_⟩
    · simp [ForLock.parse, ForLock.parseUniform, h1]
    · simp [ForLock.parse, h1]
    · rw [h2] at hc; cases hc
    · cases hu
  | false =>
    cases h2 : peekKw "SHARE" ts with
    | true =>
      refine ⟨?_, fun hu => ?_, fun _ => ?_, fun _ hsf => ?_⟩
      · simp [ForLock.parse, ForLock.parseUniform, h1, h2]
      · cases hu
      · simp [ForLock.parse, h1, h2]
      · cases hsf
    | false =>
      refine ⟨?_, fun hu => ?_, fun hc => ?_, fun _ _ => ?_⟩
      · simp [ForLock.parse, ForLock.parseUniform, h1, h2, Except.toOption]
      · cases hu
      · cases hc
      · simp [ForLock.parse, h1, h2, Except.isOk]; rfl

/-- C3 witness: the equivalence evaluated on the two keywords and a
non-keyword token. -/
theorem claim_C3_witness :
    ForLock.parse [Tok.ident "UPDATE"] = .ok (.update, [])
    ∧ ForLock.parse [Tok.ident "SHARE"] = .ok (.share, [])
    ∧ (ForLock.parse [Tok.ident "FOO"]).isOk = false := by
  refine ⟨(claim_C3 [Tok.ident "UPDATE"]).2.1 rfl, (claim_C3 [Tok.ident "SHARE"]).2.2.1 rfl,
    (claim_C3 [Tok.ident "FOO"]).2.2.2 rfl rfl⟩

/-- C2 counterexample: a full parse failing at the lock position yields a
structured error naming only `SHARE`, not the full alternative set
`UPDATE`/`SHARE` the claim requires. -/
theorem claim_C2_cex :
    Query.parse exprOne 9
      [Tok.ident "SELECT", Tok.group .brace [Tok.ident "a"], Tok.ident "FROM",
       Tok.ident "t", Tok.ident "FOR", Tok.ident "FOO"]
      = .error ⟨["SHARE"]⟩
    ∧ "UPDATE" ∉ (["SHARE"] : List String) := ⟨rfl, by decide⟩

/-- C2 amended: when the token after `FOR` is neither `UPDATE` nor
`SHARE`, the structured error names only `SHARE` — the `UPDATE` arm is
checked by a direct peek outside the lookahead-error object, so it is
never recorded among the expected alternatives. -/
theorem claim_C2_amended (t : Tok) (rest : List Tok)
    (h1 : peekKw "UPDATE" (t :: rest) = false)
    (h2 : peekKw "SHARE" (t :: rest) = false) :
    ForLock.parse (t :: rest) = .error ⟨["SHARE"]⟩ := by
  simp [ForLock.parse, h1, h2]

/-- C2 amended witness: the amended behaviour at a concrete token. -/
theorem claim_C2_amended_witness :
    ForLock.parse [Tok.ident "FOO"] = .error ⟨["SHARE"]⟩ :=
  claim_C2_amended (Tok.ident "FOO") [] rfl rfl

/-- C4: the comparison-operator parser accepts exactly the ten operator
forms, each mapping deterministically to its enum value (`NOT LIKE` and
`NOT IN` as the two-keyword sequences); a success always consumed exactly
the operator's tokens, and `NOT` followed by anything other than `LIKE`
or `IN` is a hard error naming the recorded alternatives. -/
theorem claim_C4 :
    (∀ op rest, WhereOp.parse (opTokens op ++ rest) = .ok (op, rest))
    ∧ (∀ ts op rest, WhereOp.parse ts = .ok (op, rest) → ts = opTokens op ++ rest)
    ∧ (∀ t rest, t ≠ Tok.ident "LIKE" → t ≠ Tok.ident "IN" →
        WhereOp.parse (Tok.ident "NOT" :: t :: rest)
          = .error ⟨["==", "!=", ">=", ">", "<=", "<", "LIKE", "NOT", "IN", "NOT"]⟩) := by
  refine ⟨?_, ?_, ?_⟩
  · intro op rest
    cases op <;> rfl
  · intro ts op rest h
    unfold WhereOp.parse at h
    split at h
    case isTrue h1 =>
      obtain ⟨rfl, rfl⟩ : op = .eq ∧ rest = ts.tail := by
        cases h; exact ⟨rfl, rfl⟩
      rw [peekPunct_shape h1]; rfl
    all_goals split at h
    case isTrue h1 =>
      obtain ⟨rfl, rfl⟩ : op = .ne ∧ rest = ts.tail := by
        cases h; exact ⟨rfl, rfl⟩
      rw [peekPunct_shape h1]; rfl
    all_goals split at h
    case isTrue h1 =>
      obtain ⟨rfl, rfl⟩ : op = .ge ∧ rest = ts.tail := by
        cases h; exact ⟨rfl, rfl⟩
      rw [peekPunct_shape h1]; rfl
    all_goals split at h
    case isTrue h1 =>
      obtain ⟨rfl, rfl⟩ : op = .gt ∧ rest = ts.tail := by
        cases h; exact ⟨rfl, rfl⟩
      rw [peekPunct_shape h1]; rfl
    all_goals split at h
    case isTrue h1 =>
      obtain ⟨rfl, rfl⟩ : op = .le ∧ rest = ts.tail := by
        cases h; exact ⟨rfl, rfl⟩
      rw [peekPunct_shape h1]; rfl
    all_goals split at h
    case isTrue h1 =>
      obtain ⟨rfl, rfl⟩ : op = .lt ∧ rest = ts.tail := by
        cases h; exact ⟨rfl, rfl⟩
      rw [peekPunct_shape h1]; rfl
    all_goals split at h
    case isTrue h1 =>
      obtain ⟨rfl, rfl⟩ : op = .like ∧ rest = ts.tail := by
        cases h; exact ⟨rfl, rfl⟩
      rw [peekKw_shape h1]; rfl
    all_goals split at h
    case isTrue h1 =>
      rw [Bool.and_eq_true] at h1
      obtain ⟨rfl, rfl⟩ : op = .notLike ∧ rest = ts.tail.tail := by
        cases h; exact ⟨rfl, rfl⟩
      obtain ⟨t, ht⟩ := peek2Kw_shape h1.2
      have hh := peekKw_shape h1.1
      rw [ht] at hh ⊢
      cases hh
      rfl
    all_goals split at h
    case isTrue h1 =>
      obtain ⟨rfl, rfl⟩ : op = .inOp ∧ rest = ts.tail := by
        cases h; exact ⟨rfl, rfl⟩
      rw [peekKw_shape h1]; rfl
    all_goals split at h
    case isTrue h1 =>
      rw [Bool.and_eq_true] at h1
      obtain ⟨rfl, rfl⟩ : op = .notInOp ∧ rest = ts.tail.tail := by
        cases h; exact ⟨rfl, rfl⟩
      obtain ⟨t, ht⟩ := peek2Kw_shape h1.2
      have hh := peekKw_shape h1.1
      rw [ht] at hh ⊢
      cases hh
      rfl
    case isFalse => cases h
  · intro t rest ht1 ht2
    match t with
    | .ident s =>
      have h1 : (s == "LIKE") = false := by
        simp only [beq_eq_false_iff_ne, ne_eq]
        intro hh; exact ht1 (by rw [hh])
      have h2 : (s == "IN") = false := by
        simp only [beq_eq_false_iff_ne, ne_eq]
        intro hh; exact ht2 (by rw [hh])
      simp [WhereOp.parse, peekKw, peek2Kw, peekPunct, h1, h2]
    | .litInt n => rfl
    | .punct s =>
      simp [WhereOp.parse, peekKw, peek2Kw, peekPunct]
    | .group dd tts => rfl

/-- C4 witness: the theorem applied at concrete operator tokens,
including a rejected `NOT`-then-other sequence. -/
theorem claim_C4_witness :
    WhereOp.parse [Tok.ident "NOT", Tok.ident "LIKE"] = .ok (.notLike, [])
    ∧ WhereOp.parse [Tok.ident "NOT", Tok.litInt 0]
        = .error ⟨["==", "!=", ">=", ">", "<=", "<", "LIKE", "NOT", "IN", "NOT"]⟩ := by
  refine ⟨claim_C4.1 .notLike [], ?_⟩
  exact claim_C4.2.2 (Tok.litInt 0) [] (fun hh => Tok.noConfusion hh)
    (fun hh => Tok.noConfusion hh)

/-- C1: parsing a where-node commits to a boolean group exactly when the
current token is the keyword `AND` or `OR` and the next token is a colon
(a success is then a group node); in every other case an identifier head
parses a leaf condition (a success is a leaf node, also for an identifier
spelled `AND`/`OR` without a following colon), and everything else is an
error. -/
theorem claim_C1 (d : ExprP) (fuel : Nat) (ts : List Tok) :
    (((peekKw "AND" ts || peekKw "OR" ts) && peek2Punct ":" ts) = true →
        Where.parse d (fuel + 1) ts =
          match BoolWhere.parse d fuel ts with
          | .error e => .error e
          | .ok ((op, conds), ts1) => .ok (.boolWhere op conds, ts1))
    ∧ (((peekKw "AND" ts || peekKw "OR" ts) && peek2Punct ":" ts) = false →
        peekIdent ts = true →
        Where.parse d (fuel + 1) ts =
          match conditionalColumn d ts with
          | .error e => .error e
          | .ok (c, ts1) => .ok (.column c, ts1))
    ∧ (((peekKw "AND" ts || peekKw "OR" ts) && peek2Punct ":" ts) = false →
        peekIdent ts = false →
        Where.parse d (fuel + 1) ts = .error ⟨["AND", "OR", "identifier"]⟩)
    ∧ (∀ w rest, Where.parse d (fuel + 1) ts = .ok (w, rest) →
        w.isGroup = ((peekKw "AND" ts || peekKw "OR" ts) && peek2Punct ":" ts)) := by
  have c1 : ((peekKw "AND" ts || peekKw "OR" ts) && peek2Punct ":" ts) = true →
      Where.parse d (fuel + 1) ts =
        match BoolWhere.parse d fuel ts with
        | .error e => .error e
        | .ok ((op, conds), ts1) => .ok (.boolWhere op conds, ts1) := by
    intro hc
    simp [Where.parse, hc]
  have c2 : ((peekKw "AND" ts || peekKw "OR" ts) && peek2Punct ":" ts) = false →
      peekIdent ts = true →
      Where.parse d (fuel + 1) ts =
        match conditionalColumn d ts with
        | .error e => .error e
        | .ok (c, ts1) => .ok (.column c, ts1) := by
    intro hc hi
    simp [Where.parse, hc, hi]
  have c3 : ((peekKw "AND" ts || peekKw "OR" ts) && peek2Punct ":" ts) = false →
      peekIdent ts = false →
      Where.parse d (fuel + 1) ts = .error ⟨["AND", "OR", "identifier"]⟩ := by
    intro hc hi
    simp [Where.parse, hc, hi]
  refine ⟨c1, c2, c3, ?_⟩
  intro w rest h
  cases hc : ((peekKw "AND" ts || peekKw "OR" ts) && peek2Punct ":" ts) with
  | true =>
    rw [c1 hc] at h
    cases hbw : BoolWhere.parse d fuel ts with
    | error e => rw [hbw] at h; cases h
    | ok pr =>
      obtain ⟨⟨op, conds⟩, ts1⟩ := pr
      rw [hbw] at h
      cases h
      rfl
  | false =>
    cases hi : peekIdent ts with
    | true =>
      rw [c2 hc hi] at h
      cases hcc : conditionalColumn d ts with
      | error e => rw [hcc] at h; cases h
      | ok pr =>
        obtain ⟨c, ts1⟩ := pr
        rw [hcc] at h
        cases h
        rfl
    | false =>
      rw [c3 hc hi] at h
      cases h

/-- C1 witness: the dispatch evaluated on a group input, a leaf whose
column is literally spelled `AND` (no colon follows), and a non-identifier
input. -/
theorem claim_C1_witness :
    Where.parse exprOne 9 [Tok.ident "AND", Tok.punct ":", Tok.group .brace []]
      = .ok (.boolWhere .and [], [])
    ∧ Where.parse exprOne 9 [Tok.ident "AND", Tok.punct "==", Tok.litInt 1]
      = .ok (.column ⟨⟨"AND", .eq, ⟨[Tok.litInt 1]⟩⟩, none⟩, [])
    ∧ Where.parse exprOne 9 [Tok.litInt 7] = .error ⟨["AND", "OR", "identifier"]⟩ := by
  refine ⟨?_, ?_, ?_⟩
  · rw [(claim_C1 exprOne 8 [Tok.ident "AND", Tok.punct ":", Tok.group .brace []]).1 rfl]
    rfl
  · rw [(claim_C1 exprOne 8 [Tok.ident "AND", Tok.punct "==", Tok.litInt 1]).2.1 rfl rfl]
    rfl
  · exact (claim_C1 exprOne 8 [Tok.litInt 7]).2.2.1 rfl rfl

/-- C5: at the where-clause position the result is `None` exactly when
the `WHERE` keyword is not the next token, and a `WHERE` keyword never
produces `None` (absence is the `None` state, not an empty filter); shown
for the shared `parse_where` (select/delete) and end-to-end for the
update statement, whose inlined where branch is the same code. -/
theorem claim_C5 (d : ExprP) (fuel : Nat) (ts : List Tok) :
    (peekKw "WHERE" ts = false → parse_where d fuel ts = .ok (none, ts))
    ∧ (∀ w rest, parse_where d fuel ts = .ok (some w, rest) →
        peekKw "WHERE" ts = true)
    ∧ (peekKw "WHERE" ts = true → ∀ rest, parse_where d fuel ts ≠ .ok (none, rest))
    ∧ Query.parse exprOne 9
        [Tok.ident "UPDATE", Tok.ident "t", Tok.ident "SET",
         Tok.group .brace [Tok.ident "a", Tok.punct "=", Tok.ident "b"],
         Tok.ident "WHERE", Tok.ident "c", Tok.punct "==", Tok.ident "d"]
        = .ok (.update [("a", ⟨[Tok.ident "b"]⟩)] "t"
            (some (.column ⟨⟨"c", .eq, ⟨[Tok.ident "d"]⟩⟩, none⟩)) [], [])
    ∧ Query.parse exprOne 9
        [Tok.ident "UPDATE", Tok.ident "t", Tok.ident "SET",
         Tok.group .brace [Tok.ident "a", Tok.punct "=", Tok.ident "b"]]
        = .ok (.update [("a", ⟨[Tok.ident "b"]⟩)] "t" none [], []) := by
  refine ⟨?_, ?_, ?_, rfl, rfl⟩
  · intro hw
    simp [parse_where, hw]
  · intro w rest h
    cases hw : peekKw "WHERE" ts with
    | true => rfl
    | false =>
      rw [parse_where, hw] at h
      simp at h
  · intro hw rest h
    rw [parse_where, hw] at h
    simp only [if_true] at h
    cases hp : Where.parse d fuel ts.tail with
    | error e => rw [hp] at h; cases h
    | ok pr =>
      obtain ⟨w, ts1⟩ := pr
      rw [hp] at h
      cases h

/-- C5 witness: the characterization evaluated with and without a leading
`WHERE` token. -/
theorem claim_C5_witness :
    parse_where exprOne 9 [Tok.ident "x"] = .ok (none, [Tok.ident "x"])
    ∧ ¬ (parse_where exprOne 9
          [Tok.ident "WHERE", Tok.ident "a", Tok.punct "==", Tok.litInt 1]
          = .ok (none, [])) :=
  ⟨(claim_C5 exprOne 9 [Tok.ident "x"]).1 rfl,
   (claim_C5 exprOne 9
      [Tok.ident "WHERE", Tok.ident "a", Tok.punct "==", Tok.litInt 1]).2.2.1 rfl []⟩

/-- C6: at the returning position the result is the empty list when the
`RETURNING` keyword is not the next token, and when it is, the result is
exactly the brace-delimited column list (wildcard allowed); end-to-end,
an insert without `RETURNING` carries the empty list (never an absent
state — the field's type is a list). -/
theorem claim_C6 (fuel : Nat) (ts : List Tok) :
    (peekKw "RETURNING" ts = false → parse_returning fuel ts = .ok ([], ts))
    ∧ (∀ inner rest, ts = Tok.ident "RETURNING" :: Tok.group .brace inner :: rest →
        parse_returning fuel ts =
          match parseTerminated Column.parse fuel inner with
          | .error e => .error e
          | .ok cols => .ok (cols, rest))
    ∧ parse_returning 9
        [Tok.ident "RETURNING",
         Tok.group .brace [Tok.ident "a", Tok.punct ",", Tok.ident "b",
           Tok.ident "AS", Tok.ident "c", Tok.punct ",", Tok.punct "*"]]
        = .ok ([.named "a" none, .named "b" (some "c"), .all], [])
    ∧ Query.parse exprOne 9
        [Tok.ident "INSERT",
         Tok.group .brace [Tok.ident "a", Tok.punct "=", Tok.ident "b"],
         Tok.ident "INTO", Tok.ident "t"]
        = .ok (.insert [("a", ⟨[Tok.ident "b"]⟩)] "t" [], []) := by
  refine ⟨?_, ?_, rfl, rfl⟩
  · intro hr
    simp [parse_returning, hr]
  · intro inner rest hts
    subst hts
    simp [parse_returning, peekKw, parseBraced]

/-- C6 witness: the characterization evaluated with and without a leading
`RETURNING` token. -/
theorem claim_C6_witness :
    parse_returning 9 [Tok.ident "x"] = .ok ([], [Tok.ident "x"])
    ∧ parse_returning 9 [Tok.ident "RETURNING", Tok.group .brace [Tok.punct "*"]]
        = .ok ([.all], []) := by
  refine ⟨(claim_C6 9 [Tok.ident "x"]).1 rfl, ?_⟩
  rw [(claim_C6 9 [Tok.ident "RETURNING", Tok.group .brace [Tok.punct "*"]]).2.1
    [Tok.punct "*"] [] rfl]
  rfl

/-- C7: for every join type, the `OUTER` keyword is an independent flag
parsed between the join-type keyword and `JOIN`: with or without `OUTER`
the join entry parses successfully, with the `outer` flag set from its
presence (no combination is rejected). -/
theorem claim_C7 (d : ExprP) (jt : JoinType) (outer : Bool) (tb : String)
    (rest rest2 : List Tok) (e : Expr)
    (htb : tb ∉ rustKw)
    (hd : d rest = .ok (e, rest2)) :
    Join.parse d (Tok.ident (joinKw jt) ::
      ((if outer then [Tok.ident "OUTER"] else []) ++
        (Tok.ident "JOIN" :: Tok.ident tb :: Tok.ident "ON" :: rest)))
      = .ok (⟨tb, e, jt, outer⟩, rest2) := by
  cases jt <;> cases outer <;>
    simp [Join.parse, joinKw, peekKw, parseKw, parseIdent, htb, hd]

/-- C7 witness: an inner-outer join parsed at concrete tokens. -/
theorem claim_C7_witness :
    Join.parse exprOne
      [Tok.ident "INNER", Tok.ident "OUTER", Tok.ident "JOIN",
       Tok.ident "t2", Tok.ident "ON", Tok.litInt 1]
      = .ok (⟨"t2", ⟨[Tok.litInt 1]⟩, .inner, true⟩, []) :=
  claim_C7 exprOne .inner true "t2" [Tok.litInt 1] [] ⟨[Tok.litInt 1]⟩ (by decide) rfl

/-- C8: the statement dispatcher commits to the arm named by the leading
keyword, and on any other head token fails with the error listing the
four statement keywords, producing no `Query` value. -/
theorem claim_C8 (d : ExprP) (fuel : Nat) (ts : List Tok) :
    (peekKw "SELECT" ts = false → peekKw "INSERT" ts = false →
      peekKw "UPDATE" ts = false → peekKw "DELETE" ts = false →
      Query.parse d fuel ts = .error ⟨["SELECT", "INSERT", "UPDATE", "DELETE"]⟩)
    ∧ (peekKw "SELECT" ts = true → Query.parse d fuel ts = selectBody d fuel ts.tail)
    ∧ (peekKw "INSERT" ts = true → Query.parse d fuel ts = insertBody d fuel ts.tail)
    ∧ (peekKw "UPDATE" ts = true → Query.parse d fuel ts = updateBody d fuel ts.tail)
    ∧ (peekKw "DELETE" ts = true → Query.parse d fuel ts = deleteBody d fuel ts.tail) := by
  refine ⟨?_, ?_, ?_, ?_, ?_⟩
  · intro h1 h2 h3 h4
    simp [Query.parse, h1, h2, h3, h4]
  · intro h
    simp [Query.parse, h]
  · intro h
    rw [peekKw_shape h]
    simp [Query.parse, peekKw]
  · intro h
    rw [peekKw_shape h]
    simp [Query.parse, peekKw]
  · intro h
    rw [peekKw_shape h]
    simp [Query.parse, peekKw]

/-- C8 witness: the dispatcher evaluated on a non-keyword head and on a
statement keyword. -/
theorem claim_C8_witness :
    Query.parse exprOne 0 [Tok.litInt 5]
      = .error ⟨["SELECT", "INSERT", "UPDATE", "DELETE"]⟩
    ∧ Query.parse exprOne 9 [Tok.ident "DELETE"] = deleteBody exprOne 9 [] :=
  ⟨(claim_C8 exprOne 0 [Tok.litInt 5]).1 rfl rfl rfl rfl,
   (claim_C8 exprOne 9 [Tok.ident "DELETE"]).2.2.2.2 rfl⟩

/-- C9: a limit/offset literal parses successfully exactly when it is a
non-negative integer below `2 ^ 128` (the `u128` field type); negative
or out-of-range literals fail, and end-to-end a `LIMIT` at the boundary
succeeds while `2 ^ 128` itself fails the whole parse. -/
theorem claim_C9 (n : Nat) (rest : List Tok) :
    (n < 2 ^ 128 → parseU128 (Tok.litInt n :: rest) = .ok (n, rest))
    ∧ (2 ^ 128 ≤ n → (parseU128 (Tok.litInt n :: rest)).isOk = false)
    ∧ (parseU128 (Tok.punct "-" :: Tok.litInt n :: rest)).isOk = false
    ∧ (∀ ts m rest2, parseU128 ts = .ok (m, rest2) →
        m < 2 ^ 128 ∧ ts = Tok.litInt m :: rest2)
    ∧ Query.parse exprOne 9
        [Tok.ident "SELECT", Tok.group .brace [Tok.ident "a"], Tok.ident "FROM",
         Tok.ident "t", Tok.ident "LIMIT", Tok.litInt (2 ^ 128 - 1)]
        = .ok (.select [.named "a" none] "t" none [] []
            (some (2 ^ 128 - 1)) none [] none, [])
    ∧ (Query.parse exprOne 9
        [Tok.ident "SELECT", Tok.group .brace [Tok.ident "a"], Tok.ident "FROM",
         Tok.ident "t", Tok.ident "LIMIT", Tok.litInt (2 ^ 128)]).isOk = false := by
  refine ⟨?_, ?_, ?_, ?_, ?_, ?_⟩
  · intro h
    have hb : base10ParseU128 (false, n) = .ok n := by
      simp only [base10ParseU128, if_pos h]
    simp [parseU128, parseLitInt, hb]
  · intro h
    have hb : base10ParseU128 (false, n) = .error ⟨["u128 literal"]⟩ := by
      simp only [base10ParseU128, if_neg (Nat.not_lt.mpr h)]
    simp [parseU128, parseLitInt, hb, Except.isOk]
    rfl
  · rfl
  · intro ts m rest2 h
    match ts with
    | [] => simp [parseU128, parseLitInt] at h
    | .ident s :: r => simp [parseU128, parseLitInt] at h
    | .group g gs :: r => simp [parseU128, parseLitInt] at h
    | .litInt k :: r =>
      simp only [parseU128, parseLitInt, base10ParseU128] at h
      by_cases hk : k < 2 ^ 128
      · rw [if_pos hk] at h
        cases h
        exact ⟨hk, rfl⟩
      · rw [if_neg hk] at h
        cases h
    | .punct s :: [] => simp [parseU128, parseLitInt] at h
    | .punct s :: .ident a :: r => simp [parseU128, parseLitInt] at h
    | .punct s :: .punct a :: r => simp [parseU128, parseLitInt] at h
    | .punct s :: .group g gs :: r => simp [parseU128, parseLitInt] at h
    | .punct s :: .litInt k :: r =>
      by_cases hs : s = "-"
      · subst hs
        simp [parseU128, parseLitInt, base10ParseU128] at h
      · simp [parseU128, parseLitInt, hs] at h
  · rfl
  · rfl

/-- C9 witness: the literal parser evaluated in range, out of range, and
on a negative literal. -/
theorem claim_C9_witness :
    parseU128 [Tok.litInt 7] = .ok (7, [])
    ∧ (parseU128 [Tok.litInt (2 ^ 128)]).isOk = false
    ∧ (parseU128 [Tok.punct "-", Tok.litInt 7]).isOk = false :=
  ⟨(claim_C9 7 []).1 (by norm_num),
   (claim_C9 (2 ^ 128) []).2.1 (le_refl _),
   (claim_C9 7 []).2.2.1⟩

end VQL
